import Mathlib

/-!
Shallow embedding of `lib/util.c` from the xbps package manager, together
with theorems settling the specification claims about it.

Strings are modelled as `List Char` (`CStr`), assumed free of embedded NUL
characters, so that the C string functions `strrchr`, `strpbrk`, `strncmp`,
`strlcpy` become structural recursions over the character list.  External
collaborators that are not part of this source file (the proplib dictionary
store, the SHA256 routine from OpenSSL, the filesystem) are passed in as
explicit parameters, so every definition stays executable.
-/

set_option autoImplicit false

/-- CStr models a NUL-terminated C string as its list of characters. -/
abbrev CStr := List Char

/-- PATH_MAX as on Linux (limits.h): size of the static `res` buffers in
`xbps_set_cachedir` and `xbps_get_cachedir`. -/
def PATH_MAX : Nat := 4096

/-- SSIZE_MAX on an LP64 platform, used by the size guard in
`xbps_get_file_hash`. -/
def SSIZE_MAX : Nat := 2 ^ 63 - 1

/-- errno value ENOENT (no such file or directory). -/
def ENOENT : Nat := 2

/-- errno value ERANGE, returned by `xbps_check_file_hash` on a hash
mismatch. -/
def ERANGE : Nat := 34

/-- SHA256_DIGEST_LENGTH from openssl/sha.h: a digest is 32 bytes. -/
def SHA256_DIGEST_LENGTH : Nat := 32

/-- One hex digit as written by `digest2string` in the C source:
digits below ten map to characters from the digit zero upward, the rest to
lowercase letters from the letter a upward. -/
def hexDigit (n : Nat) : Char :=
  if n < 10 then Char.ofNat (Char.toNat '0' + n)
  else Char.ofNat (Char.toNat 'a' + n - 10)

/-- digest2string from the C source: each byte of the digest becomes two
hex characters, high nibble first (`*digest / 16`), then low nibble
(`*digest % 16`).  The C version walks `len` bytes of a raw buffer; here
the digest is the whole byte list, matching the single call site which
passes a full 32-byte digest with `len = SHA256_DIGEST_LENGTH`. -/
def digest2string : List Nat → CStr
  | [] => []
  | b :: rest => hexDigit (b / 16) :: hexDigit (b % 16) :: digest2string rest

/-- xbps_get_file_hash from the C source.  `fs` models the filesystem: it
maps a path either to the byte content of the file or to the errno of the
failing open/fstat/mmap call.  `sha256` models the external OpenSSL SHA256
routine as a pure function from the byte content to the 32-byte digest.
The C code fails (returns NULL) when the file cannot be opened or statted,
or when `st.st_size > SSIZE_MAX - 1`; otherwise it hashes exactly
`st.st_size` bytes and renders the digest in lowercase hex.  The page
rounding and guard-page mapping in the original only affect how the bytes
reach memory, not which bytes are hashed, so they leave no trace here. -/
def xbps_get_file_hash (sha256 : List Nat → List Nat)
    (fs : CStr → Except Nat (List Nat)) (file : CStr) : Option CStr :=
  match fs file with
  | Except.error _ => none
  | Except.ok bytes =>
    if bytes.length > SSIZE_MAX - 1 then none
    else some (digest2string (sha256 bytes))

/-- xbps_check_file_hash from the C source.  If `xbps_get_file_hash`
returns NULL the function returns the ambient errno (modelled by
`errnoVal`); otherwise it compares the expected hash with the computed one
using `strcmp` — exact, case-sensitive equality — and returns 0 on a match
and ERANGE on a mismatch. -/
def xbps_check_file_hash (sha256 : List Nat → List Nat)
    (fs : CStr → Except Nat (List Nat)) (errnoVal : Nat)
    (file sha256str : CStr) : Nat :=
  match xbps_get_file_hash sha256 fs file with
  | none => errnoVal
  | some res => if sha256str = res then 0 else ERANGE

/-- hasPfx p s is true when p is a literal prefix of s, character by
character.  It models `strncmp(s, lit, strlen(lit)) == 0` for a literal
`lit` without embedded NUL characters. -/
def hasPfx : CStr → CStr → Bool
  | [], _ => true
  | _ :: _, [] => false
  | c :: p, a :: s => a = c && hasPfx p s

/-- xbps_check_is_repo_string_remote from the C source: three `strncmp`
prefix tests against the literals with schemes https, http and ftp. -/
def xbps_check_is_repo_string_remote (uri : CStr) : Bool :=
  hasPfx "https://".data uri || hasPfx "http://".data uri ||
    hasPfx "ftp://".data uri

/-- strrchrSuffix c s models `strrchr(s, c)` for a character c that is not
NUL: it returns the suffix of s that starts at the last occurrence of c,
or none when c does not occur in s. -/
def strrchrSuffix (c : Char) : CStr → Option CStr
  | [] => none
  | a :: rest =>
    match strrchrSuffix c rest with
    | some t => some t
    | none => if a = c then some (a :: rest) else none

/-- xbps_get_pkg_epoch from the C source: `strrchr(pkg, ':')`, then the
pointer one past the colon; none when there is no colon. -/
def xbps_get_pkg_epoch (pkg : CStr) : Option CStr :=
  match strrchrSuffix ':' pkg with
  | none => none
  | some tmp => some tmp.tail

/-- xbps_get_pkg_version from the C source: `strrchr(pkg, '-')`, then the
pointer one past the dash; none when there is no dash. -/
def xbps_get_pkg_version (pkg : CStr) : Option CStr :=
  match strrchrSuffix '-' pkg with
  | none => none
  | some tmp => some tmp.tail

/-- xbps_get_pkg_revision from the C source: `strrchr(pkg, '_')`, then the
pointer one past the underscore; none when there is no underscore. -/
def xbps_get_pkg_revision (pkg : CStr) : Option CStr :=
  match strrchrSuffix '_' pkg with
  | none => none
  | some tmp => some tmp.tail

/-- xbps_get_pkg_name from the C source: `strrchr(pkg, '-')`; none when
there is no dash, otherwise a copy of the first
`strlen(pkg) - strlen(tmp)` characters of pkg (the `strlcpy` into a buffer
of `strlen(pkg) - strlen(tmp) + 1` bytes).  Allocation failure of `malloc`
is not modelled. -/
def xbps_get_pkg_name (pkg : CStr) : Option CStr :=
  match strrchrSuffix '-' pkg with
  | none => none
  | some tmp => some (pkg.take (pkg.length - tmp.length))

/-- strpbrkSuffix s accept models `strpbrk(s, accept)`: the suffix of s
starting at the first character of s that belongs to accept, or none when
no character of s does. -/
def strpbrkSuffix (accept : CStr) : CStr → Option CStr
  | [] => none
  | a :: rest =>
    if a ∈ accept then some (a :: rest) else strpbrkSuffix accept rest

/-- xbps_get_pkgpattern_name from the C source: `strpbrk(pkg, "><=")`;
none when no constraint character occurs, otherwise a copy of the first
`strlen(pkg) - strlen(res)` characters of pkg (the prefix before the first
constraint character). -/
def xbps_get_pkgpattern_name (pkg : CStr) : Option CStr :=
  match strpbrkSuffix ('>' :: '<' :: '=' :: []) pkg with
  | none => none
  | some res => some (pkg.take (pkg.length - res.length))

/-- xbps_get_pkgpattern_version from the C source: `strpbrk(pkg, "><=")`
itself — the suffix from the first constraint character to the end — or
none when no constraint character occurs. -/
def xbps_get_pkgpattern_version (pkg : CStr) : Option CStr :=
  strpbrkSuffix ('>' :: '<' :: '=' :: []) pkg

/-- XbpsConfig models the three static globals of util.c: `rootdir`,
`cachedir` and `flags`.  A none field is a NULL pointer (never set). -/
structure XbpsConfig where
  rootdir : Option CStr
  cachedir : Option CStr
  flags : Int

/-- xbps_set_rootdir from the C source: stores the argument. -/
def xbps_set_rootdir (dir : CStr) (st : XbpsConfig) : XbpsConfig :=
  ⟨some dir, st.cachedir, st.flags⟩

/-- xbps_get_rootdir from the C source: when `rootdir` is NULL it is first
set to the literal root path, then returned.  The returned pair is the
result and the updated global state. -/
def xbps_get_rootdir (st : XbpsConfig) : CStr × XbpsConfig :=
  match st.rootdir with
  | none => ("/".data, ⟨some "/".data, st.cachedir, st.flags⟩)
  | some r => (r, st)

/-- xbps_set_cachedir from the C source.  `snprintf(res, sizeof(res) - 1,
"%s/%s", xbps_get_rootdir(), dir)` formats rootdir, a slash and dir into a
PATH_MAX buffer with size argument PATH_MAX - 1; the result r is the
untruncated length, and the code falls back to the compile-time default
cache path when `r == -1 || r >= (int)sizeof(res) - 1`.  Format failure
(r == -1) cannot happen for this format string and is not modelled.
`cachePath` stands for the XBPS_CACHE_PATH constant from the (external)
configuration header. -/
def xbps_set_cachedir (cachePath dir : CStr) (st : XbpsConfig) : XbpsConfig :=
  match xbps_get_rootdir st with
  | (root, st1) =>
    if PATH_MAX - 1 ≤ root.length + 1 + dir.length then
      ⟨st1.rootdir, some cachePath, st1.flags⟩
    else
      ⟨st1.rootdir, some (root ++ '/' :: dir), st1.flags⟩

/-- xbps_get_cachedir from the C source.  When `cachedir` is NULL it is
computed as rootdir, a slash and XBPS_CACHE_PATH via the same truncating
snprintf as in `xbps_set_cachedir`; on truncation the function returns
NULL without setting `cachedir`. -/
def xbps_get_cachedir (cachePath : CStr) (st : XbpsConfig) :
    Option CStr × XbpsConfig :=
  match st.cachedir with
  | some c => (some c, st)
  | none =>
    match xbps_get_rootdir st with
    | (root, st1) =>
      if PATH_MAX - 1 ≤ root.length + 1 + cachePath.length then (none, st1)
      else
        (some (root ++ '/' :: cachePath),
          ⟨st1.rootdir, some (root ++ '/' :: cachePath), st1.flags⟩)

/-- Env packages the external collaborators used by
`xbps_check_is_installed_pkg`, none of which are defined in util.c:
`findInstalled` models `xbps_find_pkg_dict_installed` (none is a NULL
dictionary), `findErrno` the errno observed after a failed lookup,
`getState` models `xbps_get_pkg_state_dictionary` (none is a nonzero
return), `pkgverFromDict` the `pkgver` string read by the static helper
`xbps_get_pkgver_from_dict`, `patternMatch` models
`xbps_pkgpattern_match`, and `stateInstalled` the constant
XBPS_PKG_STATE_INSTALLED from the external header. -/
structure Env (D : Type) where
  findInstalled : CStr → Option D
  findErrno : CStr → Nat
  getState : D → Option Nat
  pkgverFromDict : D → Option CStr
  patternMatch : CStr → CStr → Int
  stateInstalled : Nat

/-- xbps_check_is_installed_pkg from the C source.  It first derives a
name with `xbps_get_pkgpattern_name`, returning -1 when that yields NULL;
then looks the name up among installed packages, mapping a NULL dictionary
with errno ENOENT to 0 (not installed) and any other failure to -1; then
requires the package state to be XBPS_PKG_STATE_INSTALLED, returning 0
otherwise; and finally delegates to the pattern matcher on the installed
pkgver and the original pattern. -/
def xbps_check_is_installed_pkg {D : Type} (env : Env D) (pkg : CStr) : Int :=
  match xbps_get_pkgpattern_name pkg with
  | none => -1
  | some pkgname =>
    match env.findInstalled pkgname with
    | none => if env.findErrno pkgname = ENOENT then 0 else -1
    | some dict =>
      match env.getState dict with
      | none => -1
      | some state =>
        if state = env.stateInstalled then
          match env.pkgverFromDict dict with
          | none => -1
          | some instpkgver => env.patternMatch instpkgver pkg
        else 0

/-- xbps_get_binpkg_local_path from the C source.  `pkgd` models the
package dictionary as a partial map from key to string value.  The C code
calls `prop_dictionary_get_cstring_nocopy` on the keys filename and
architecture without checking the returned status; when a key is missing
the local variable keeps its indeterminate initial contents, modelled by
the explicit parameters `filen0` and `arch0`.  The cache directory is
resolved through `xbps_get_cachedir`; a NULL result aborts with NULL.
Otherwise a local repository yields repoloc, architecture and filename
joined by slashes, and a remote one yields the cache directory and the
filename. -/
def xbps_get_binpkg_local_path (pkgd : CStr → Option CStr)
    (filen0 arch0 : CStr) (cachePath : CStr) (st : XbpsConfig)
    (repoloc : CStr) : Option CStr :=
  let filen := (pkgd "filename".data).getD filen0
  let arch := (pkgd "architecture".data).getD arch0
  match (xbps_get_cachedir cachePath st).fst with
  | none => none
  | some cdir =>
    if xbps_check_is_repo_string_remote repoloc = false then
      some (repoloc ++ '/' :: (arch ++ '/' :: filen))
    else
      some (cdir ++ '/' :: filen)

/-!
Helper lemmas characterising the string scanning primitives.
-/

/-- hasPfx p s holds exactly when s decomposes as p followed by a rest. -/
theorem hasPfx_iff (p : CStr) : ∀ s : CStr, hasPfx p s = true ↔ ∃ r, s = p ++ r := by
  induction p with
  | nil => intro s; simp [hasPfx]
  | cons c p ih =>
    intro s
    cases s with
    | nil => simp [hasPfx]
    | cons a s =>
      simp only [hasPfx, Bool.and_eq_true, decide_eq_true_eq, ih, List.cons_append,
        List.cons.injEq]
      constructor
      · rintro ⟨rfl, r, rfl⟩
        exact ⟨r, rfl, rfl⟩
      · rintro ⟨r, rfl, rfl⟩
        exact ⟨rfl, r, rfl⟩

/-- strrchrSuffix returns none exactly when the character does not occur. -/
theorem strrchrSuffix_eq_none_iff (c : Char) (s : CStr) :
    strrchrSuffix c s = none ↔ c ∉ s := by
  induction s with
  | nil => simp [strrchrSuffix]
  | cons a rest ih =>
    simp only [strrchrSuffix]
    cases h : strrchrSuffix c rest with
    | some t =>
      have hc : c ∈ rest := by
        by_contra hn
        rw [ih.mpr hn] at h
        exact Option.noConfusion h
      simp [List.mem_cons, hc]
    | none =>
      have hrest : c ∉ rest := ih.mp h
      by_cases hac : a = c
      · subst hac
        simp [List.mem_cons]
      · simp [hac, List.mem_cons, hrest, Ne.symm hac]

/-- strrchrSuffix finds the last occurrence in an explicit decomposition. -/
theorem strrchrSuffix_append (c : Char) (a u : CStr) (hu : c ∉ u) :
    strrchrSuffix c (a ++ c :: u) = some (c :: u) := by
  induction a with
  | nil =>
    simp only [List.nil_append, strrchrSuffix]
    rw [(strrchrSuffix_eq_none_iff c u).mpr hu]
    simp
  | cons x a ih =>
    simp only [List.cons_append, strrchrSuffix, List.append_eq]
    rw [ih]

/-- strrchrSuffix returns some t exactly when t is the suffix of s that
starts at the last occurrence of c. -/
theorem strrchrSuffix_eq_some_iff (c : Char) (s t : CStr) :
    strrchrSuffix c s = some t ↔ ∃ a u, t = c :: u ∧ s = a ++ c :: u ∧ c ∉ u := by
  constructor
  · induction s with
    | nil => intro h; exact absurd h (by simp [strrchrSuffix])
    | cons x rest ih =>
      intro h
      simp only [strrchrSuffix] at h
      cases hr : strrchrSuffix c rest with
      | some w =>
        rw [hr] at h
        obtain rfl : w = t := by injection h
        obtain ⟨a, u, h1, h2, h3⟩ := ih hr
        exact ⟨x :: a, u, h1, by simp [h2], h3⟩
      | none =>
        rw [hr] at h
        by_cases hxc : x = c
        · rw [if_pos hxc] at h
          have ht : t = x :: rest := by injection h with h1; exact h1.symm
          subst hxc
          exact ⟨[], rest, ht, by simp [ht], (strrchrSuffix_eq_none_iff x rest).mp hr⟩
        · rw [if_neg hxc] at h
          exact absurd h (by simp)
  · rintro ⟨a, u, rfl, rfl, hu⟩
    exact strrchrSuffix_append c a u hu

/-- Mapping List.tail over strrchrSuffix yields none exactly when the
character does not occur. -/
theorem tailAfter_eq_none_iff (c : Char) (s : CStr) :
    Option.map List.tail (strrchrSuffix c s) = none ↔ c ∉ s := by
  rw [Option.map_eq_none']
  exact strrchrSuffix_eq_none_iff c s

/-- Mapping List.tail over strrchrSuffix yields some t exactly when t is
the suffix following the last occurrence of c. -/
theorem tailAfter_eq_some_iff (c : Char) (s t : CStr) :
    Option.map List.tail (strrchrSuffix c s) = some t ↔
      ∃ a, s = a ++ c :: t ∧ c ∉ t := by
  constructor
  · intro h
    cases hr : strrchrSuffix c s with
    | none => rw [hr] at h; exact absurd h (by simp)
    | some w =>
      rw [hr] at h
      obtain rfl : w.tail = t := by injection h
      obtain ⟨a, u, hw, hs, hu⟩ := (strrchrSuffix_eq_some_iff c s w).mp hr
      subst hw
      exact ⟨a, hs, hu⟩
  · rintro ⟨a, rfl, ht⟩
    rw [strrchrSuffix_append c a t ht]
    rfl

/-- xbps_get_pkg_version as a composition of strrchrSuffix and tail. -/
theorem xbps_get_pkg_version_eq (pkg : CStr) :
    xbps_get_pkg_version pkg = Option.map List.tail (strrchrSuffix '-' pkg) := by
  unfold xbps_get_pkg_version
  cases strrchrSuffix '-' pkg <;> rfl

/-- xbps_get_pkg_revision as a composition of strrchrSuffix and tail. -/
theorem xbps_get_pkg_revision_eq (pkg : CStr) :
    xbps_get_pkg_revision pkg = Option.map List.tail (strrchrSuffix '_' pkg) := by
  unfold xbps_get_pkg_revision
  cases strrchrSuffix '_' pkg <;> rfl

/-- xbps_get_pkg_epoch as a composition of strrchrSuffix and tail. -/
theorem xbps_get_pkg_epoch_eq (pkg : CStr) :
    xbps_get_pkg_epoch pkg = Option.map List.tail (strrchrSuffix ':' pkg) := by
  unfold xbps_get_pkg_epoch
  cases strrchrSuffix ':' pkg <;> rfl

/-- strpbrkSuffix returns none exactly when no character of s is in the
accept set. -/
theorem strpbrkSuffix_eq_none_iff (accept s : CStr) :
    strpbrkSuffix accept s = none ↔ ∀ c ∈ s, c ∉ accept := by
  induction s with
  | nil => simp [strpbrkSuffix]
  | cons a rest ih =>
    simp only [strpbrkSuffix]
    by_cases h : a ∈ accept
    · simp [h]
    · simp [h, ih, List.forall_mem_cons]

/-- strpbrkSuffix finds the first occurrence in an explicit
decomposition. -/
theorem strpbrkSuffix_append (accept a : CStr) (c : Char) (t : CStr)
    (hc : c ∈ accept) (ha : ∀ x ∈ a, x ∉ accept) :
    strpbrkSuffix accept (a ++ c :: t) = some (c :: t) := by
  induction a with
  | nil => simp [strpbrkSuffix, hc]
  | cons x a ih =>
    have hx : x ∉ accept := ha x (by simp)
    simp only [List.cons_append, strpbrkSuffix]
    rw [if_neg hx]
    exact ih (fun y hy => ha y (by simp [hy]))

/-- Taking all but the length of the second part of an append returns the
first part: the arithmetic behind the strlcpy length computations. -/
theorem take_sub_length (a b : CStr) :
    (a ++ b).take ((a ++ b).length - b.length) = a := by
  have h : (a ++ b).length - b.length = a.length := by
    simp [List.length_append]
  rw [h, List.take_left]

/-- xbps_get_rootdir reads the stored root directory or its default. -/
theorem xbps_get_rootdir_fst (st : XbpsConfig) :
    (xbps_get_rootdir st).fst = st.rootdir.getD "/".data := by
  cases h : st.rootdir <;> simp [xbps_get_rootdir, h]

/-- xbps_get_rootdir on a state with rootdir never set. -/
theorem xbps_get_rootdir_none (st : XbpsConfig) (h : st.rootdir = none) :
    xbps_get_rootdir st = ("/".data, ⟨some "/".data, st.cachedir, st.flags⟩) := by
  simp [xbps_get_rootdir, h]

/-- xbps_get_rootdir on a state with rootdir already set. -/
theorem xbps_get_rootdir_some (st : XbpsConfig) (r : CStr)
    (h : st.rootdir = some r) : xbps_get_rootdir st = (r, st) := by
  simp [xbps_get_rootdir, h]

/-- xbps_get_cachedir returns NULL when cachedir was never set and the
formatted rootdir slash cachePath string does not fit below the
PATH_MAX - 1 snprintf limit. -/
theorem xbps_get_cachedir_unset_trunc (cachePath : CStr) (st : XbpsConfig)
    (r : CStr) (h2 : st.cachedir = none) (h1 : st.rootdir = some r)
    (hc : PATH_MAX - 1 ≤ r.length + 1 + cachePath.length) :
    (xbps_get_cachedir cachePath st).fst = none := by
  simp only [xbps_get_cachedir, h2, xbps_get_rootdir_some st r h1, if_pos hc]

/-!
Concrete collaborators used by the witness theorems.
-/

/-- Constant hash function returning 32 zero bytes, a concrete stand-in
for the external SHA256 routine. -/
def shaZero : List Nat → List Nat := fun _ => List.replicate 32 0

/-- Constant hash function returning the single byte 171 (0xab), a
concrete stand-in for the external SHA256 routine. -/
def shaByte : List Nat → List Nat := fun _ => 171 :: []

/-- Filesystem in which every path names an empty file. -/
def fsEmptyFile : CStr → Except Nat (List Nat) := fun _ => Except.ok []

/-- C3: for every file whose digest computation succeeds, verifying that
file against the digest just computed returns 0: the round-trip identity
of `xbps_get_file_hash` and `xbps_check_file_hash`. -/
theorem xbps_check_file_hash_roundtrip (sha256 : List Nat → List Nat)
    (fs : CStr → Except Nat (List Nat)) (errnoVal : Nat) (file d : CStr)
    (h : xbps_get_file_hash sha256 fs file = some d) :
    xbps_check_file_hash sha256 fs errnoVal file d = 0 := by
  simp [xbps_check_file_hash, h]

/-- C3 witness: the round trip on a concrete filesystem and hash. -/
theorem xbps_check_file_hash_roundtrip_witness :
    xbps_check_file_hash shaZero fsEmptyFile 5 "f".data
      (digest2string (List.replicate 32 0)) = 0 :=
  xbps_check_file_hash_roundtrip shaZero fsEmptyFile 5 "f".data
    (digest2string (List.replicate 32 0)) (by decide)

/-- C4: verification compares the expected string to the computed hex
digest by exact, case-sensitive string equality; a mismatch yields the
distinguished code ERANGE, which differs from the success code 0. -/
theorem xbps_check_file_hash_case_sensitive (sha256 : List Nat → List Nat)
    (fs : CStr → Except Nat (List Nat)) (errnoVal : Nat)
    (file expected res : CStr)
    (h : xbps_get_file_hash sha256 fs file = some res) :
    xbps_check_file_hash sha256 fs errnoVal file expected =
      (if expected = res then 0 else ERANGE) ∧ ERANGE ≠ 0 := by
  constructor
  · simp only [xbps_check_file_hash, h]
  · decide

/-- C4 witness: an expected hash differing from the computed lowercase
digest only in letter case is rejected with ERANGE. -/
theorem xbps_check_file_hash_case_sensitive_witness :
    xbps_check_file_hash shaByte fsEmptyFile 2 [] "AB".data = ERANGE := by
  have h := xbps_check_file_hash_case_sensitive shaByte fsEmptyFile 2 []
    "AB".data "ab".data (by decide)
  rw [h.1]
  decide

/-- C5: version, revision and epoch are each exactly the suffix following
the last occurrence of their delimiter, and are absent, not empty and not
an error, when the delimiter does not occur. -/
theorem xbps_pkg_fields_last_delimiter (s t : CStr) :
    (xbps_get_pkg_version s = none ↔ ('-' : Char) ∉ s) ∧
    (xbps_get_pkg_version s = some t ↔
      ∃ a, s = a ++ '-' :: t ∧ ('-' : Char) ∉ t) ∧
    (xbps_get_pkg_revision s = none ↔ ('_' : Char) ∉ s) ∧
    (xbps_get_pkg_revision s = some t ↔
      ∃ a, s = a ++ '_' :: t ∧ ('_' : Char) ∉ t) ∧
    (xbps_get_pkg_epoch s = none ↔ (':' : Char) ∉ s) ∧
    (xbps_get_pkg_epoch s = some t ↔
      ∃ a, s = a ++ ':' :: t ∧ (':' : Char) ∉ t) := by
  refine ⟨?_, ?_, ?_, ?_, ?_, ?_⟩
  · rw [xbps_get_pkg_version_eq]; exact tailAfter_eq_none_iff _ _
  · rw [xbps_get_pkg_version_eq]; exact tailAfter_eq_some_iff _ _ _
  · rw [xbps_get_pkg_revision_eq]; exact tailAfter_eq_none_iff _ _
  · rw [xbps_get_pkg_revision_eq]; exact tailAfter_eq_some_iff _ _ _
  · rw [xbps_get_pkg_epoch_eq]; exact tailAfter_eq_none_iff _ _
  · rw [xbps_get_pkg_epoch_eq]; exact tailAfter_eq_some_iff _ _ _

/-- C5 witness: the three extractors on a concrete identifier, and the
absent case on an identifier without the delimiter. -/
theorem xbps_pkg_fields_last_delimiter_witness :
    xbps_get_pkg_version "foo-1.0_2:3".data = some "1.0_2:3".data ∧
    xbps_get_pkg_revision "foo-1.0_2:3".data = some "2:3".data ∧
    xbps_get_pkg_epoch "foo-1.0_2:3".data = some "3".data ∧
    xbps_get_pkg_version "foo".data = none :=
  ⟨(xbps_pkg_fields_last_delimiter "foo-1.0_2:3".data "1.0_2:3".data).2.1.mpr
      ⟨"foo".data, by decide, by decide⟩,
   (xbps_pkg_fields_last_delimiter "foo-1.0_2:3".data "2:3".data).2.2.2.1.mpr
      ⟨"foo-1.0".data, by decide, by decide⟩,
   (xbps_pkg_fields_last_delimiter "foo-1.0_2:3".data "3".data).2.2.2.2.2.mpr
      ⟨"foo-1.0_2".data, by decide, by decide⟩,
   (xbps_pkg_fields_last_delimiter "foo".data []).1.mpr (by decide)⟩

/-- C6: when a dash occurs, name is the prefix strictly before the last
dash and concatenating name, a dash and version reconstructs the input;
when no dash occurs both name and version are absent. -/
theorem xbps_get_pkg_name_version_split (s : CStr) :
    (('-' : Char) ∈ s → ∃ n v, xbps_get_pkg_name s = some n ∧
        xbps_get_pkg_version s = some v ∧ s = n ++ '-' :: v ∧
        ('-' : Char) ∉ v) ∧
    (('-' : Char) ∉ s →
      xbps_get_pkg_name s = none ∧ xbps_get_pkg_version s = none) := by
  constructor
  · intro hs
    cases hw : strrchrSuffix '-' s with
    | none => exact absurd hs ((strrchrSuffix_eq_none_iff '-' s).mp hw)
    | some w =>
      obtain ⟨a, u, hwcu, hsu, hu⟩ := (strrchrSuffix_eq_some_iff '-' s w).mp hw
      subst hwcu
      refine ⟨a, u, ?_, ?_, hsu, hu⟩
      · simp only [xbps_get_pkg_name, hw]
        rw [hsu, take_sub_length a ('-' :: u)]
      · rw [xbps_get_pkg_version_eq]
        exact (tailAfter_eq_some_iff '-' s u).mpr ⟨a, hsu, hu⟩
  · intro hs
    have h0 : strrchrSuffix '-' s = none :=
      (strrchrSuffix_eq_none_iff '-' s).mpr hs
    exact ⟨by simp [xbps_get_pkg_name, h0],
      by rw [xbps_get_pkg_version_eq, h0]; rfl⟩

/-- C6 witness: the split on a concrete identifier with a dash, and the
absent case on one without. -/
theorem xbps_get_pkg_name_version_split_witness :
    (∃ n v, xbps_get_pkg_name "foo-1.0".data = some n ∧
        xbps_get_pkg_version "foo-1.0".data = some v ∧
        "foo-1.0".data = n ++ '-' :: v ∧ ('-' : Char) ∉ v) ∧
    (xbps_get_pkg_name "foo".data = none ∧
      xbps_get_pkg_version "foo".data = none) :=
  ⟨(xbps_get_pkg_name_version_split "foo-1.0".data).1 (by decide),
   (xbps_get_pkg_name_version_split "foo".data).2 (by decide)⟩

/-- C7: the pattern name is the prefix strictly before the first
constraint character and the pattern constraint is the suffix from that
character to the end, operator included; with no constraint character both
are absent, not an error. -/
theorem xbps_pkgpattern_first_delimiter (s : CStr) :
    ((∀ c ∈ s, c ∉ ('>' :: '<' :: '=' :: ([] : CStr))) →
        xbps_get_pkgpattern_name s = none ∧
        xbps_get_pkgpattern_version s = none) ∧
    (∀ a c t, s = a ++ c :: t → c ∈ ('>' :: '<' :: '=' :: ([] : CStr)) →
        (∀ x ∈ a, x ∉ ('>' :: '<' :: '=' :: ([] : CStr))) →
        xbps_get_pkgpattern_name s = some a ∧
        xbps_get_pkgpattern_version s = some (c :: t)) := by
  constructor
  · intro h
    have h0 := (strpbrkSuffix_eq_none_iff ('>' :: '<' :: '=' :: []) s).mpr h
    exact ⟨by simp [xbps_get_pkgpattern_name, h0],
      by unfold xbps_get_pkgpattern_version; exact h0⟩
  · intro a c t hs hc ha
    have h1 : strpbrkSuffix ('>' :: '<' :: '=' :: []) s = some (c :: t) := by
      rw [hs]; exact strpbrkSuffix_append _ a c t hc ha
    refine ⟨?_, by unfold xbps_get_pkgpattern_version; exact h1⟩
    simp only [xbps_get_pkgpattern_name, h1]
    rw [hs, take_sub_length a (c :: t)]

/-- C7 witness: the split on a concrete pattern with a constraint, and the
absent case on a bare name. -/
theorem xbps_pkgpattern_first_delimiter_witness :
    (xbps_get_pkgpattern_name "foo>=1.0".data = some "foo".data ∧
      xbps_get_pkgpattern_version "foo>=1.0".data = some ('>' :: "=1.0".data)) ∧
    (xbps_get_pkgpattern_name "foo".data = none ∧
      xbps_get_pkgpattern_version "foo".data = none) :=
  ⟨(xbps_pkgpattern_first_delimiter "foo>=1.0".data).2 "foo".data '>' "=1.0".data
      (by decide) (by decide) (by decide),
   (xbps_pkgpattern_first_delimiter "foo".data).1 (by decide)⟩

/-- C8: a repository string is classified remote exactly when it starts
with one of the three literal scheme strings, by exact case-sensitive
character comparison; everything else is local. -/
theorem xbps_remote_scheme_iff (uri : CStr) :
    xbps_check_is_repo_string_remote uri = true ↔
      (∃ r, uri = "https://".data ++ r) ∨ (∃ r, uri = "http://".data ++ r) ∨
        (∃ r, uri = "ftp://".data ++ r) := by
  unfold xbps_check_is_repo_string_remote
  simp only [Bool.or_eq_true, hasPfx_iff]
  exact or_assoc

/-- C8 witness: a concrete remote uri is classified remote, and an
uppercase scheme variant is classified local. -/
theorem xbps_remote_scheme_iff_witness :
    xbps_check_is_repo_string_remote "https://example.org/repo".data = true ∧
    xbps_check_is_repo_string_remote "HTTP://example.org".data = false :=
  ⟨(xbps_remote_scheme_iff "https://example.org/repo".data).mpr
      (Or.inl ⟨"example.org/repo".data, by decide⟩),
   by decide⟩

/-- Env with an empty Metadata Store: no package is installed and a failed
lookup leaves errno at ENOENT. -/
def envEmpty : Env Unit :=
  ⟨fun _ => none, fun _ => ENOENT, fun _ => none, fun _ => none,
    fun _ _ => 0, 0⟩

/-- C1, amended: for a pattern without any constraint character,
`xbps_check_is_installed_pkg` returns -1 (error) for every Metadata Store,
because `xbps_get_pkgpattern_name` yields NULL for such strings and the
code has no fallback to the whole string; the store is never consulted. -/
theorem xbps_check_is_installed_pkg_no_constraint (D : Type) (env : Env D)
    (pkg : CStr) (h : ∀ c ∈ pkg, c ∉ ('>' :: '<' :: '=' :: ([] : CStr))) :
    xbps_check_is_installed_pkg env pkg = -1 := by
  have h0 : xbps_get_pkgpattern_name pkg = none := by
    simp [xbps_get_pkgpattern_name,
      (strpbrkSuffix_eq_none_iff ('>' :: '<' :: '=' :: []) pkg).mpr h]
  simp [xbps_check_is_installed_pkg, h0]

/-- C1 witness: a concrete bare name with a concrete store. -/
theorem xbps_check_is_installed_pkg_no_constraint_witness :
    xbps_check_is_installed_pkg envEmpty "bar".data = -1 :=
  xbps_check_is_installed_pkg_no_constraint Unit envEmpty "bar".data (by decide)

/-- C1 counterexample: on the bare name foo with an empty store the claim
predicts NotInstalled (0); the code returns -1, the error value. -/
theorem xbps_check_is_installed_pkg_bare_name_counterexample :
    xbps_check_is_installed_pkg envEmpty "foo".data = -1 ∧
    xbps_check_is_installed_pkg envEmpty "foo".data ≠ 0 := by
  decide

/-- Package dictionary with no fields at all. -/
def pkgdEmpty : CStr → Option CStr := fun _ => none

/-- Package dictionary with concrete filename and architecture fields. -/
def pkgdFull : CStr → Option CStr := fun k =>
  if k = "filename".data then some "pkg.xbps".data
  else if k = "architecture".data then some "x86_64".data
  else none

/-- Configuration state with rootdir and cachedir both already set. -/
def stSet : XbpsConfig := ⟨some "/".data, some "/var/cache/xbps".data, 0⟩

/-- C2, amended: the function reads filename and architecture without
checking presence — a missing field leaves the indeterminate initial value
in place instead of failing — and it fails only when the cache directory
cannot be resolved; with both fields present and the cache directory
resolved it returns repoLocation, architecture and filename joined by
slashes for a local location and cachedir and filename for a remote
one. -/
theorem xbps_get_binpkg_local_path_resolved (pkgd : CStr → Option CStr)
    (filen0 arch0 cachePath : CStr) (st : XbpsConfig)
    (repoloc filen arch cdir : CStr)
    (hf : pkgd "filename".data = some filen)
    (ha : pkgd "architecture".data = some arch)
    (hc : (xbps_get_cachedir cachePath st).fst = some cdir) :
    xbps_get_binpkg_local_path pkgd filen0 arch0 cachePath st repoloc =
      if xbps_check_is_repo_string_remote repoloc then
        some (cdir ++ '/' :: filen)
      else some (repoloc ++ '/' :: (arch ++ '/' :: filen)) := by
  simp only [xbps_get_binpkg_local_path, hf, ha, hc, Option.getD_some]
  cases hr : xbps_check_is_repo_string_remote repoloc <;> simp [hr]

/-- C2 witness: both fields present, local repository. -/
theorem xbps_get_binpkg_local_path_resolved_witness :
    xbps_get_binpkg_local_path pkgdFull "F0".data "A0".data
      "var/cache/xbps".data stSet "/repo".data =
      some "/repo/x86_64/pkg.xbps".data := by
  have h := xbps_get_binpkg_local_path_resolved pkgdFull "F0".data "A0".data
    "var/cache/xbps".data stSet "/repo".data "pkg.xbps".data "x86_64".data
    "/var/cache/xbps".data (by decide) (by decide) (by decide)
  rw [h]
  decide

/-- C2 counterexample: with both fields absent the claim predicts a
MissingField failure; the code does not fail and returns a path built from
the indeterminate local values. -/
theorem xbps_get_binpkg_local_path_missing_field_counterexample :
    xbps_get_binpkg_local_path pkgdEmpty "F0".data "A0".data
      "var/cache/xbps".data stSet "/repo".data = some "/repo/A0/F0".data ∧
    xbps_get_binpkg_local_path pkgdEmpty "F0".data "A0".data
      "var/cache/xbps".data stSet "/repo".data ≠ none := by
  decide

/-- C9, amended: a never-set rootdir reads as the root path, on the first
and on later reads; a never-set cachedir reads as rootdir (resolved by the
same defaulting rule), a slash and the cache subpath constant, provided
that string fits below the PATH_MAX - 1 limit of the snprintf buffer —
otherwise the read fails and returns NULL. -/
theorem xbps_config_lazy_defaults (cachePath : CStr) (st : XbpsConfig)
    (h2 : st.cachedir = none) :
    (st.rootdir = none → (xbps_get_rootdir st).fst = "/".data ∧
      (xbps_get_rootdir (xbps_get_rootdir st).snd).fst = "/".data) ∧
    (xbps_get_cachedir cachePath st).fst =
      (if PATH_MAX - 1 ≤ (st.rootdir.getD "/".data).length + 1 + cachePath.length
       then none
       else some (st.rootdir.getD "/".data ++ '/' :: cachePath)) := by
  constructor
  · intro h1
    constructor
    · rw [xbps_get_rootdir_fst, h1]; rfl
    · simp [xbps_get_rootdir, h1]
  · cases h1 : st.rootdir with
    | none =>
      simp only [xbps_get_cachedir, h2, xbps_get_rootdir_none st h1, h1,
        Option.getD_none]
      split <;> rfl
    | some r =>
      simp only [xbps_get_cachedir, h2, xbps_get_rootdir_some st r h1, h1,
        Option.getD_some]
      split <;> rfl

/-- C9 witness: the defaults from the pristine state, where the formatted
cache path fits. -/
theorem xbps_config_lazy_defaults_witness :
    (xbps_get_rootdir ⟨none, none, 0⟩).fst = "/".data ∧
    (xbps_get_cachedir "var/cache/xbps".data ⟨none, none, 0⟩).fst =
      some "//var/cache/xbps".data := by
  have h := xbps_config_lazy_defaults "var/cache/xbps".data ⟨none, none, 0⟩ rfl
  refine ⟨(h.1 rfl).1, ?_⟩
  rw [h.2]
  decide

/-- Configuration state whose rootdir is 4090 characters long. -/
def stLongRoot : XbpsConfig := ⟨some (List.replicate 4090 'a'), none, 0⟩

/-- C9 counterexample: with a 4090-character rootdir and cachedir never
set, the claim predicts that the first read returns rootdir, a slash and
the cache subpath; the snprintf result would not fit in PATH_MAX - 1, so
the code returns NULL instead. -/
theorem xbps_get_cachedir_truncation_counterexample :
    (xbps_get_cachedir "var/cache/xbps".data stLongRoot).fst = none ∧
    (xbps_get_cachedir "var/cache/xbps".data stLongRoot).fst ≠
      some (List.replicate 4090 'a' ++ '/' :: "var/cache/xbps".data) := by
  have h14 : ("var/cache/xbps".data).length = 14 := by decide
  have hc : PATH_MAX - 1 ≤ (List.replicate 4090 'a').length + 1 +
      ("var/cache/xbps".data).length := by
    rw [List.length_replicate, h14]
    decide
  have h : (xbps_get_cachedir "var/cache/xbps".data stLongRoot).fst = none :=
    xbps_get_cachedir_unset_trunc "var/cache/xbps".data stLongRoot
      (List.replicate 4090 'a') rfl rfl hc
  exact ⟨h, by rw [h]; exact fun hx => Option.noConfusion hx⟩

/-- C10: the cache-directory setter stores rootdir (resolved with its
default), a slash and the argument — not the argument itself — except that
when the formatted string would not fit below the PATH_MAX - 1 limit it
stores the built-in default cache subpath with no rootdir prepended. -/
theorem xbps_set_cachedir_stores_concat (cachePath dir : CStr)
    (st : XbpsConfig) :
    (xbps_set_cachedir cachePath dir st).cachedir =
      some (if PATH_MAX - 1 ≤ (st.rootdir.getD "/".data).length + 1 + dir.length
            then cachePath
            else st.rootdir.getD "/".data ++ '/' :: dir) := by
  cases h1 : st.rootdir with
  | none =>
    simp only [xbps_set_cachedir, xbps_get_rootdir_none st h1, h1,
      Option.getD_none]
    split <;> rfl
  | some r =>
    simp only [xbps_set_cachedir, xbps_get_rootdir_some st r h1, h1,
      Option.getD_some]
    split <;> rfl

/-- C10 witness: a short directory is stored under the defaulted rootdir,
and an overlong one falls back to the default cache subpath constant. -/
theorem xbps_set_cachedir_stores_concat_witness :
    (xbps_set_cachedir "var/cache/xbps".data "mycache".data
      ⟨none, none, 0⟩).cachedir = some "//mycache".data ∧
    (xbps_set_cachedir "var/cache/xbps".data (List.replicate 4095 'b')
      ⟨none, none, 0⟩).cachedir = some "var/cache/xbps".data := by
  constructor
  · rw [xbps_set_cachedir_stores_concat]
    decide
  · rw [xbps_set_cachedir_stores_concat]
    rw [show ((⟨none, none, 0⟩ : XbpsConfig).rootdir) = (none : Option CStr)
      from rfl, Option.getD_none]
    have hc : PATH_MAX - 1 ≤
        ("/".data).length + 1 + (List.replicate 4095 'b').length := by
      rw [List.length_replicate]
      rw [show ("/".data).length = 1 from by decide]
      decide
    rw [if_pos hc]
